import Mathlib

/-!
Shallow embedding of the generation-pipeline core of the repository:

* `extractJson` / `parseLlmOutput`  — the output parser/normalizer in
  `apps/web/src/app/dev/page.jsx`;
* `apiFetch`                        — the resilient request gateway in
  `apps/web/src/lib/api.js`;
* `injectRag` / `skipRag` / `compilePdf` — the dev-mode pipeline steps in
  `apps/web/src/app/dev/page.jsx`, modelled as transitions on the page's
  React state;
* `validateRecord`                  — the persistence-side validation gate
  (backend endpoint, not under `src/`), modelled from the spec.

JavaScript values returned by `JSON.parse` are modelled by the inductive
`Json`.  Numbers are carried as their source lexeme (a `String`): no claim
below compares two numerals denoting the same IEEE double, so the lexeme is
an exact, float-free representation of what was parsed.
-/

/-- A parsed JSON value (the result of a successful `JSON.parse`).
`num` stores the numeric lexeme verbatim. -/
inductive Json where
  | null
  | bool (b : Bool)
  | num (lex : String)
  | str (s : String)
  | arr (elems : List Json)
  | obj (members : List (String × Json))

/-- Property read `o[k]` on a JS object: first binding wins (the parser below
keeps at most one binding per key, later duplicates overwriting in place). -/
def getKey : List (String × Json) → String → Option Json
  | [], _ => none
  | (k', v) :: ms, k => if k' = k then some v else getKey ms k

/-- Property write `o[k] = v` on a JS object: an existing key keeps its
position and gets the new value; a new key is appended. -/
def setKey : List (String × Json) → String → Json → List (String × Json)
  | [], k, v => [(k, v)]
  | (k', v') :: ms, k, v =>
      if k' = k then (k, v) :: ms else (k', v') :: setKey ms k v

/-- `v?.k` in JS: property read through an optional chain; `undefined`
(`none`) on every non-object, including `null`, arrays and primitives. -/
def jsGet (v : Json) (k : String) : Option Json :=
  match v with
  | .obj ms => getKey ms k
  | _ => none

/-! ### A strict `JSON.parse` (ECMA-404 grammar) -/

/-- Insignificant whitespace accepted by `JSON.parse` (only these four). -/
def jsonWsB (c : Char) : Bool :=
  [' ', '\t', '\n', '\r'].contains c

def skipJsonWs (cs : List Char) : List Char := cs.dropWhile jsonWsB

def isDigitB (c : Char) : Bool := 48 ≤ c.toNat && c.toNat ≤ 57

/-- Split off the maximal leading digit run. -/
def takeDigitsL (cs : List Char) : List Char × List Char :=
  (cs.takeWhile isDigitB, cs.dropWhile isDigitB)

/-- Value of one hexadecimal digit (`0-9`, `a-f`, `A-F`). -/
def hexVal (c : Char) : Option Nat :=
  let n := c.toNat
  if 48 ≤ n ∧ n ≤ 57 then some (n - 48)
  else if 97 ≤ n ∧ n ≤ 102 then some (n - 87)
  else if 65 ≤ n ∧ n ≤ 70 then some (n - 55)
  else none

def hex4 (a b c d : Char) : Option Nat :=
  match hexVal a, hexVal b, hexVal c, hexVal d with
  | some va, some vb, some vc, some vd =>
      some (va * 4096 + vb * 256 + vc * 16 + vd)
  | _, _, _, _ => none

def unescapeChar : Char → Option Char
  | '"' => some '"'
  | '\\' => some '\\'
  | '/' => some '/'
  | 'n' => some '\x0a'
  | 't' => some '\x09'
  | 'r' => some '\x0d'
  | 'b' => some '\x08'
  | 'f' => some '\x0c'
  | _ => none

/-- String body after the opening quote.  Raw control characters (< 0x20) are
rejected, exactly as `JSON.parse` rejects them.  (A `\uXXXX` in the surrogate
range would make `Char.ofNat` fall back to `\0`; no input in this development
uses surrogate escapes.) -/
def parseStringBody : List Char → List Char → Option (String × List Char)
  | acc, '"' :: rest => some (String.mk acc.reverse, rest)
  | acc, '\\' :: 'u' :: a :: b :: c :: d :: rest =>
      match hex4 a b c d with
      | some n => parseStringBody (Char.ofNat n :: acc) rest
      | none => none
  | acc, '\\' :: e :: rest =>
      match unescapeChar e with
      | some ch => parseStringBody (ch :: acc) rest
      | none => none
  | acc, c :: rest =>
      if c.toNat < 32 then none else parseStringBody (c :: acc) rest
  | _, [] => none

/-- Mandatory integer part of a JSON number: `0`, or a nonzero digit followed
by digits (leading zeros rejected, as in `JSON.parse`). -/
def intPart : List Char → Option (List Char × List Char)
  | '0' :: r => some (['0'], r)
  | c :: r =>
      if isDigitB c then
        let (ds, r2) := takeDigitsL r
        some (c :: ds, r2)
      else none
  | [] => none

/-- Optional fraction `.digits`; a bare `.` is left unconsumed (the caller
then fails on the stray character, matching `JSON.parse`'s rejection). -/
def fracPart : List Char → List Char × List Char
  | '.' :: r =>
      let (ds, r2) := takeDigitsL r
      if ds.isEmpty then ([], '.' :: r) else ('.' :: ds, r2)
  | r => ([], r)

/-- Optional exponent `e|E [+|-] digits`; malformed exponents are left
unconsumed, making the overall parse fail on the stray character. -/
def expPart : List Char → List Char × List Char
  | c :: r =>
      if c == 'e' || c == 'E' then
        match r with
        | s :: r2 =>
            if s == '+' || s == '-' then
              let (ds, r3) := takeDigitsL r2
              if ds.isEmpty then ([], c :: r) else (c :: s :: ds, r3)
            else
              let (ds, r3) := takeDigitsL r
              if ds.isEmpty then ([], c :: r) else (c :: ds, r3)
        | [] => ([], [c])
      else ([], c :: r)
  | [] => ([], [])

/-- Lexeme of a JSON number (strict grammar), returned verbatim. -/
def numberLexeme (cs : List Char) : Option (List Char × List Char) :=
  let (sgn, cs1) := match cs with
    | '-' :: r => (['-'], r)
    | r => (([] : List Char), r)
  match intPart cs1 with
  | none => none
  | some (ip, cs2) =>
      let (fp, cs3) := fracPart cs2
      let (ep, cs4) := expPart cs3
      some (sgn ++ ip ++ fp ++ ep, cs4)

mutual

/-- One JSON value (fuel-indexed; callers supply `length + 1` fuel, enough
because every recursion step first consumes at least one character). -/
def parseVal : Nat → List Char → Option (Json × List Char)
  | 0, _ => none
  | Nat.succ fuel, cs =>
      match skipJsonWs cs with
      | 'n' :: 'u' :: 'l' :: 'l' :: rest => some (.null, rest)
      | 't' :: 'r' :: 'u' :: 'e' :: rest => some (.bool true, rest)
      | 'f' :: 'a' :: 'l' :: 's' :: 'e' :: rest => some (.bool false, rest)
      | '"' :: rest =>
          match parseStringBody [] rest with
          | some (s, r) => some (.str s, r)
          | none => none
      | '{' :: rest => parseObjBody fuel rest
      | '[' :: rest => parseArrBody fuel rest
      | other =>
          match numberLexeme other with
          | some (lex, r) => some (.num (String.mk lex), r)
          | none => none

def parseObjBody : Nat → List Char → Option (Json × List Char)
  | 0, _ => none
  | Nat.succ fuel, cs =>
      match skipJsonWs cs with
      | '}' :: rest => some (.obj [], rest)
      | cs2 => parseMembers fuel [] cs2

/-- Members of an object; a duplicate key overwrites in place, as JS
property assignment does. -/
def parseMembers : Nat → List (String × Json) → List Char → Option (Json × List Char)
  | 0, _, _ => none
  | Nat.succ fuel, acc, cs =>
      match skipJsonWs cs with
      | '"' :: rest =>
          match parseStringBody [] rest with
          | none => none
          | some (k, r1) =>
              match skipJsonWs r1 with
              | ':' :: r2 =>
                  match parseVal fuel r2 with
                  | none => none
                  | some (v, r3) =>
                      match skipJsonWs r3 with
                      | ',' :: r4 => parseMembers fuel (setKey acc k v) r4
                      | '}' :: r4 => some (.obj (setKey acc k v), r4)
                      | _ => none
              | _ => none
      | _ => none

def parseArrBody : Nat → List Char → Option (Json × List Char)
  | 0, _ => none
  | Nat.succ fuel, cs =>
      match skipJsonWs cs with
      | ']' :: rest => some (.arr [], rest)
      | cs2 => parseElems fuel [] cs2

def parseElems : Nat → List Json → List Char → Option (Json × List Char)
  | 0, _, _ => none
  | Nat.succ fuel, acc, cs =>
      match parseVal fuel cs with
      | none => none
      | some (v, r) =>
          match skipJsonWs r with
          | ',' :: r2 => parseElems fuel (acc ++ [v]) r2
          | ']' :: r2 => some (.arr (acc ++ [v]), r2)
          | _ => none

end

/-- `JSON.parse`: one value, anything but trailing whitespace after it is an
error (`none` models the thrown `SyntaxError`). -/
def jsonParse (s : String) : Option Json :=
  match parseVal (s.data.length + 1) s.data with
  | some (v, rest) => if (skipJsonWs rest).isEmpty then some v else none
  | none => none

/-! ### JavaScript string/value helpers used by the page code -/

/-- ECMAScript whitespace, as recognized by both `String.prototype.trim` and
the regex class `\s` (WhiteSpace ∪ LineTerminator).  The exotic Unicode
space-separator members that never occur in this repository's data
(U+1680, U+2000–U+200A, U+202F, U+205F) are omitted. -/
def jsWsB (c : Char) : Bool :=
  [' ', '\t', '\n', '\r', Char.ofNat 11, Char.ofNat 12, Char.ofNat 0xa0,
   Char.ofNat 0x2028, Char.ofNat 0x2029, Char.ofNat 0x3000,
   Char.ofNat 0xfeff].contains c

/-- `String.prototype.trim` on a character list. -/
def trimList (cs : List Char) : List Char :=
  ((cs.dropWhile jsWsB).reverse.dropWhile jsWsB).reverse

/-- `s.trim()` in JS. -/
def jsTrim (s : String) : String := String.mk (trimList s.data)

/-- `s.length` in JS counts UTF-16 code units: astral characters count 2. -/
def utf16Len (s : String) : Nat :=
  s.data.foldl (fun n c => n + (if c.toNat ≥ 65536 then 2 else 1)) 0

/-- Is the numeric lexeme a zero (`0`, `-0`, `0.00`, `0e5`, ...)?  True
exactly when every mantissa digit is `0`. -/
def numLexIsZero (lex : String) : Bool :=
  let cs := match lex.data with
    | '-' :: r => r
    | r => r
  (cs.takeWhile (fun c => !(c == 'e') && !(c == 'E'))).all
    (fun c => c == '0' || c == '.')

/-- JS truthiness of a parsed JSON value (`NaN` cannot arise from
`JSON.parse`, so numbers are falsy exactly when they denote zero). -/
def jsTruthy : Json → Bool
  | .null => false
  | .bool b => b
  | .num lex => !(numLexIsZero lex)
  | .str s => !(s == "")
  | .arr _ => true
  | .obj _ => true

/-- Rendering of a JS value used when it is spliced into a template string
or an `Error` message.  Exact for strings; for numbers the lexeme stands in
for number-to-string conversion (they agree on all inputs used here). -/
def jsDisplayStr : Json → String
  | .null => "null"
  | .bool b => if b then "true" else "false"
  | .num lex => lex
  | .str s => s
  | .arr _ => ""
  | .obj _ => "[object Object]"

def listStartsWith : List Char → List Char → Bool
  | [], _ => true
  | _ :: _, [] => false
  | p :: ps, c :: cs => p == c && listStartsWith ps cs

def listHasSub (pat : List Char) : List Char → Bool
  | [] => pat.isEmpty
  | c :: cs => listStartsWith pat (c :: cs) || listHasSub pat cs

/-- `s.includes(pat)` in JS. -/
def strIncludes (s pat : String) : Bool := listHasSub pat.data s.data

/-! ### `extractJson` (page.jsx) -/

/-- The backtick character (written by code point to keep source plain). -/
def btick : Char := Char.ofNat 96

/-- Does the list start with a triple-backtick fence marker? -/
def isFenceHead : List Char → Bool
  | a :: b :: c :: _ => a == btick && b == btick && c == btick
  | _ => false

/-- The optional `json` tag right after an opening fence (`(?:json)?`). -/
def dropJsonTag : List Char → List Char
  | 'j' :: 's' :: 'o' :: 'n' :: r => r
  | r => r

/-- The lazy group `([\s\S]*?)` up to the first closing fence: the characters
before the first triple-backtick ahead, or `none` if no fence closes. -/
def captureToCloser : List Char → Option (List Char)
  | [] => none
  | c :: cs =>
      if isFenceHead (c :: cs) then some []
      else (captureToCloser cs).map (c :: ·)

/-- First match of `/```(?:json)?\s*\n?([\s\S]*?)```/`, returning the capture
group: the regex engine tries each start position left to right; a match must
begin with ``` , optionally consumes a `json` tag, greedily eats whitespace
(`\s*\n?`), then captures lazily up to the next ``` .  If no fence closes,
the engine moves the start one character right. -/
def fencedFrom : List Char → Option (List Char)
  | [] => none
  | c :: cs =>
      if isFenceHead (c :: cs) then
        match captureToCloser ((dropJsonTag (List.drop 2 cs)).dropWhile jsWsB) with
        | some cap => some cap
        | none => fencedFrom cs
      else fencedFrom cs

/-- `text.indexOf('{')` and the suffix from there (`none` when absent). -/
def dropToBrace : List Char → Option (List Char)
  | [] => none
  | c :: cs => if c == '{' then some (c :: cs) else dropToBrace cs

/-- Brace-depth scan of `extractJson`: starting at the first `{`, depth is
incremented on `{` and decremented on `}` (string contents are NOT skipped);
when depth returns to 0 the slice so far is fed to `JSON.parse`, and a parse
failure breaks out (overall `null`). -/
def braceScanAux : List Char → Int → List Char → Option Json
  | [], _, _ => none
  | c :: cs, depth, acc =>
      let d := depth + (if c == '{' then 1 else 0) - (if c == '}' then 1 else 0)
      if d = 0 then jsonParse (String.mk (c :: acc).reverse)
      else braceScanAux cs d (c :: acc)

def braceFallback (cs : List Char) : Option Json :=
  match dropToBrace cs with
  | some t => braceScanAux t 0 []
  | none => none

/-- `extractJson` from `page.jsx`: prefer a fenced block (its capture,
trimmed, fed to `JSON.parse`); on no fenced match or a fenced parse failure,
fall through to the brace-depth scan; `none` models the JS `null`. -/
def extractJsonL (cs : List Char) : Option Json :=
  match fencedFrom cs with
  | some cap =>
      match jsonParse (String.mk (trimList cap)) with
      | some v => some v
      | none => braceFallback cs
  | none => braceFallback cs

def extractJson (text : String) : Option Json := extractJsonL text.data

/-! ### `parseLlmOutput` (page.jsx): normalization of the parsed record -/

/-- Leading numeric token per `/^[^\d-]*(-?[\d]+(?:\.\d+)?)/`: skip characters
that are neither digit nor `-`; a digit starts the token; a `-` starts it only
when immediately followed by a digit (otherwise the anchored regex fails,
since `[^\d-]*` can never step over the `-`). -/
def digitsThenFrac (cs : List Char) : List Char :=
  let (ds, rest) := takeDigitsL cs
  match rest with
  | '.' :: r =>
      let (fs, _) := takeDigitsL r
      if fs.isEmpty then ds else ds ++ '.' :: fs
  | _ => ds

def lntScan : List Char → Option (List Char)
  | [] => none
  | c :: cs =>
      if isDigitB c then some (digitsThenFrac (c :: cs))
      else if c == '-' then
        match cs with
        | d :: _ => if isDigitB d then some ('-' :: digitsThenFrac cs) else none
        | [] => none
      else lntScan cs

def leadingNumericToken (s : String) : Option String :=
  (lntScan s.data).map String.mk

/-- `final_answer` repair: a string value that has a leading numeric token and
is longer than 20 UTF-16 units (a long explanation) is replaced by the token. -/
def normalizeFinalAnswer (j : Json) : Json :=
  match j with
  | .obj ms =>
      match getKey ms "final_answer" with
      | some (.str fa) =>
          match leadingNumericToken fa with
          | some tok =>
              if utf16Len fa > 20 then .obj (setKey ms "final_answer" (.str tok))
              else .obj ms
          | none => .obj ms
      | _ => .obj ms
  | j => j

/-- The placeholder entry `{ desc: '自動生成 — 未検証', ok: false }`. -/
def autoCheck : Json :=
  .obj [("desc", .str "自動生成 — 未検証"), ("ok", .bool false)]

/-- The padding entry `{ desc: '自動補完 — 未検証', ok: false }`. -/
def padCheck : Json :=
  .obj [("desc", .str "自動補完 — 未検証"), ("ok", .bool false)]

/-- One mapped entry: `{ desc: c?.desc || `check ${i+1}`, ok: c?.ok ?? false }`
(`||` falls back on any falsy value, `??` only on `null`/`undefined`). -/
def coerceCheck (i : Nat) (c : Json) : Json :=
  let dflt : Json := .str ("check " ++ toString (i + 1))
  let descV : Json :=
    match jsGet c "desc" with
    | some v => if jsTruthy v then v else dflt
    | none => dflt
  let okV : Json :=
    match jsGet c "ok" with
    | some .null => .bool false
    | some v => v
    | none => .bool false
  .obj [("desc", descV), ("ok", okV)]

def mapWithIdx (f : Nat → Json → Json) : Nat → List Json → List Json
  | _, [] => []
  | i, c :: cs => f i c :: mapWithIdx f (i + 1) cs

/-- `checks` repair: a non-array is replaced by two `autoCheck` placeholders;
an array is mapped through `coerceCheck` and padded with `padCheck` up to
length 2.  (On a non-object `parsed`, the JS property assignment to a
primitive is a silent no-op; no claim concerns a non-object here.) -/
def normalizeChecks (j : Json) : Json :=
  match j with
  | .obj ms =>
      match getKey ms "checks" with
      | some (.arr cs) =>
          let mapped := mapWithIdx coerceCheck 0 cs
          .obj (setKey ms "checks" (.arr (mapped ++ List.replicate (2 - mapped.length) padCheck)))
      | _ => .obj (setKey ms "checks" (.arr [autoCheck, autoCheck]))
  | j => j

/-- Both in-place repairs of `parseLlmOutput`, in source order. -/
def normalizeParsed (j : Json) : Json := normalizeChecks (normalizeFinalAnswer j)

/-- The fallback record built when `extractJson` yields nothing truthy. -/
def fallbackRecord (llmOutput : String) : Json :=
  .obj [("stem", .str (jsTrim llmOutput)),
        ("stem_latex", .str (jsTrim llmOutput)),
        ("final_answer", .str ""),
        ("checks", .arr [autoCheck, autoCheck])]

/-- Outcome of `parseLlmOutput`: the guard on empty input, the normalized
JSON branch, or the plain-prose fallback branch. -/
inductive ParseOutcome where
  | emptyInput
  | parsedJson (record : Json)
  | prose (record : Json)

/-- `parseLlmOutput` from `page.jsx` (the value handed to
`setParsedProblem`, tagged by the branch taken).  Total: it never throws. -/
def parseLlmOutput (llmOutput : String) : ParseOutcome :=
  if jsTrim llmOutput = "" then .emptyInput
  else
    match extractJson llmOutput with
    | some v =>
        if jsTruthy v then .parsedJson (normalizeParsed v)
        else .prose (fallbackRecord llmOutput)
    | none => .prose (fallbackRecord llmOutput)

/-! ### `apiFetch` (lib/api.js): the resilient request gateway

One gateway call is driven by an oracle `f : Nat → FetchOutcome` giving the
result of the `fetch` on each attempt (the 3-second linear backoff sleep
between attempts has no observable effect beyond ordering and is elided). -/

/-- What one `fetch(url, …)` attempt produced. -/
inductive FetchOutcome where
  | abortError
  | netError (msg : String)
  | response (status : Nat) (statusText : String) (contentType : String) (body : String)

/-- The distinct `throw` sites of `apiFetch`, each carrying what its `Error`
message is built from. -/
inductive ApiError where
  | timeoutErr
  | connectErr (msg : String)
  | unavailableErr (status : Nat)
  | parseFailErr (status : Nat)
  | nonJsonHttpErr (status : Nat) (statusText : String)
  | httpErr (msg : String)
  | emptyBodyErr
  | noAttemptErr

/-- A successful gateway result: parsed JSON data, or the raw response object
for non-JSON content types. -/
inductive ApiData where
  | jsonData (v : Json)
  | rawResponse (status : Nat) (statusText : String) (contentType : String) (body : String)

/-- `res.ok` in JS: status in [200, 299]. -/
def resOk (status : Nat) : Bool := 200 ≤ status && status ≤ 299

/-- `data?.detail || data?.error || res.statusText || 'HTTP ' + status`. -/
def errMsgFrom (d : Json) (status : Nat) (statusText : String) : String :=
  match jsGet d "detail" with
  | some v =>
      if jsTruthy v then jsDisplayStr v
      else match jsGet d "error" with
        | some w =>
            if jsTruthy w then jsDisplayStr w
            else if statusText == "" then "HTTP " ++ toString status else statusText
        | none => if statusText == "" then "HTTP " ++ toString status else statusText
  | none =>
      match jsGet d "error" with
      | some w =>
          if jsTruthy w then jsDisplayStr w
          else if statusText == "" then "HTTP " ++ toString status else statusText
      | none => if statusText == "" then "HTTP " ++ toString status else statusText

/-- Handling of one resolved response after the retry guard: content-type
dispatch, JSON body parsing (an empty body short-circuits to `null` without
parsing), and the `!res.ok` / null-data error paths of `apiFetch`. -/
def processResponse (status : Nat) (statusText contentType body : String) :
    Except ApiError ApiData :=
  if strIncludes contentType "application/json" then
    match (if body == "" then some Json.null else jsonParse body) with
    | none =>
        if resOk status then .error .emptyBodyErr
        else .error (.parseFailErr status)
    | some d =>
        if !resOk status then .error (.httpErr (errMsgFrom d status statusText))
        else
          match d with
          | .null => .error .emptyBodyErr
          | d => .ok (.jsonData d)
  else
    if !resOk status then .error (.nonJsonHttpErr status statusText)
    else .ok (.rawResponse status statusText contentType body)

/-- The retry loop of `apiFetch`: `fuel` is the number of attempts still
allowed (`retries + 1` at the top); a timeout or connection error records a
`lastError` and retries; a 502/504 response retries while attempts remain
(`attempt < retries` in the source is `fuel > 1` here); any other response is
processed and returned.  The second component counts `fetch` calls made. -/
def apiFetchGo (f : Nat → FetchOutcome) : Nat → Nat → Option ApiError →
    Except ApiError ApiData × Nat
  | 0, _, lastError => (.error (lastError.getD .noAttemptErr), 0)
  | Nat.succ fuel, attempt, _ =>
      match f attempt with
      | .abortError =>
          let (r, n) := apiFetchGo f fuel (attempt + 1) (some .timeoutErr)
          (r, n + 1)
      | .netError m =>
          let (r, n) := apiFetchGo f fuel (attempt + 1) (some (.connectErr m))
          (r, n + 1)
      | .response status statusText contentType body =>
          if (status == 502 || status == 504) && fuel > 0 then
            match fuel with
            | 0 => (processResponse status statusText contentType body, 1)
            | Nat.succ fuel2 =>
                let (r, n) := apiFetchGo f (Nat.succ fuel2) (attempt + 1)
                  (some (.unavailableErr status))
                (r, n + 1)
          else (processResponse status statusText contentType body, 1)

/-- `apiFetch` with explicit retry budget (`options.retries`). -/
def apiFetchWith (f : Nat → FetchOutcome) (retries : Nat) :
    Except ApiError ApiData × Nat :=
  apiFetchGo f (retries + 1) 0 none

/-- `apiFetch` with the default `retries = 2` (three attempts). -/
def apiFetch (f : Nat → FetchOutcome) : Except ApiError ApiData × Nat :=
  apiFetchWith f 2

/-! ### Dev-mode page state and the pipeline step handlers (page.jsx)

The wizard's React state, restricted to the fields the pipeline handlers
touch.  Each handler is a function from the old state and the awaited remote
outcome to the new state (the transient in-progress status set before the
`await` is overwritten on every path, so only the resolved state is kept).
Raw JS values landing in state (`data.pdf_url`, `data.inserted_id`,
`data.retrieved || []`) are kept as `Json`. -/

structure DevState where
  currentStep : Nat
  status : String
  basePrompt : String
  ragPrompt : String
  retrievedChunks : Json
  ragSkipped : Bool
  llmOutput : String
  parsedProblem : Option Json
  parseError : String
  savedProblemId : Json
  pdfUrl : Json
  pdfWorking : Bool

/-- `data.retrieved || []`. -/
def retrievedOf (data : Json) : Json :=
  match jsGet data "retrieved" with
  | some v => if jsTruthy v then v else .arr []
  | none => .arr []

/-- `.length` of the retrieved list as shown in the success status (the
handlers only ever read it off an array). -/
def jsArrLen : Json → Nat
  | .arr l => l.length
  | _ => 0

/-- `data.prompt_summarized || data.prompt || ''`. -/
def ragPromptOf (data : Json) : String :=
  match jsGet data "prompt_summarized" with
  | some v =>
      if jsTruthy v then jsDisplayStr v
      else match jsGet data "prompt" with
        | some w => if jsTruthy w then jsDisplayStr w else ""
        | none => ""
  | none =>
      match jsGet data "prompt" with
      | some w => if jsTruthy w then jsDisplayStr w else ""
      | none => ""

/-- The guidance status shown when retrieval reports an empty index. -/
def ragEmptyHint : String :=
  "RAGデータが未登録のためスキップ可能です。「RAG をスキップ」ボタンで次へ進めます。"

/-- `injectRag` from `page.jsx`: guard on a missing base prompt; on success
install the RAG prompt and chunks and advance to step 3; on failure only the
status changes — an `empty vocabulary` / `retrieval failed` message (the
retrieval service's cold-store signals) yields the skip guidance, anything
else the error status.  No failure path discards accumulated state. -/
def injectRag (s : DevState) (result : Except String Json) : DevState :=
  if s.basePrompt == "" then
    { s with status := "まずベースプロンプトを生成してください" }
  else
    match result with
    | .ok data =>
        { s with
          ragPrompt := ragPromptOf data
          retrievedChunks := retrievedOf data
          ragSkipped := false
          currentStep := 3
          status := "RAG注入完了（" ++ toString (jsArrLen (retrievedOf data)) ++ "件参照）" }
    | .error msg =>
        if strIncludes msg "empty vocabulary" || strIncludes msg "retrieval failed" then
          { s with status := ragEmptyHint }
        else
          { s with status := "RAGエラー: " ++ msg }

/-- `skipRag` from `page.jsx`: record the skip as its own transition and move
to step 3 with the RAG prompt cleared (the base prompt is used downstream). -/
def skipRag (s : DevState) : DevState :=
  { s with
    ragSkipped := true
    ragPrompt := ""
    retrievedChunks := .arr []
    currentStep := 3
    status := "RAG をスキップしました（ベースプロンプトをそのまま使用）" }

/-- `finalPrompt = ragPrompt || basePrompt` (page.jsx). -/
def finalPrompt (s : DevState) : String :=
  if s.ragPrompt == "" then s.basePrompt else s.ragPrompt

/-- The status tail of `compilePdf`'s non-throwing failure branches:
`${data.error} — ${data.detail || data.stderr || ''}` when `data.error` is
truthy, else the missing-engine message. -/
def compileFailDetail (data : Json) : String :=
  match jsGet data "error" with
  | some e =>
      if jsTruthy e then
        let extra :=
          match jsGet data "detail" with
          | some d =>
              if jsTruthy d then jsDisplayStr d
              else match jsGet data "stderr" with
                | some st => if jsTruthy st then jsDisplayStr st else ""
                | none => ""
          | none =>
              match jsGet data "stderr" with
              | some st => if jsTruthy st then jsDisplayStr st else ""
              | none => ""
        jsDisplayStr e ++ " — " ++ extra
      else "サーバーに LaTeX エンジンがインストールされていません"
  | none => "サーバーに LaTeX エンジンがインストールされていません"

/-- `compilePdf` from `page.jsx`: guard on empty LaTeX input; on a response
with a truthy `pdf_url` install it; otherwise report `PDF 生成失敗` built from
`data.error` (with `detail`/`stderr`), the missing-engine fallback, or the
thrown message; `pdfWorking` is cleared on every path after the guard.
Only `pdfUrl` and `status` are ever written — parse and persist results are
untouched.  (`window.open` is a browser side effect outside the state.) -/
def compilePdf (s : DevState) (result : Except String Json) : DevState :=
  if jsTrim s.llmOutput == "" then
    { s with status := "LaTeX を貼り付けてください" }
  else
    let s2 :=
      match result with
      | .ok data =>
          match jsGet data "pdf_url" with
          | some u =>
              if jsTruthy u then
                { s with pdfUrl := u, status := "PDF を開きました" }
              else compileFailStatus s data
          | none => compileFailStatus s data
      | .error msg =>
          { s with status := "PDF 生成失敗: " ++ msg }
    { s2 with pdfWorking := false }
where
  /-- The two non-throwing failure branches of `compilePdf`, which differ only
  in the status message after the common `PDF 生成失敗: ` stem: the
  `data.error` message with its `detail`/`stderr` suffix, or the
  missing-engine fallback. -/
  compileFailStatus (s : DevState) (data : Json) : DevState :=
    { s with status := "PDF 生成失敗: " ++ compileFailDetail data }

/-! ### The persistence-side validation gate (modelled) -/

/-- Typed parse-failure kinds from the spec's error taxonomy. -/
inductive ParseErrorKind where
  | missingRequiredField
  deriving DecidableEq

/-- Modelled from the spec: the backend endpoint `/api/tuning/save_problem`
is not under `src/` (only its web caller `saveToProblemsDb` and the
`missing_stem` error mapping are), so its validation gate is taken from the
spec's words: "a record lacking a non-empty `stem` is rejected with a
`ParseError` of kind `MissingRequiredField`"; a record with a non-empty
`stem` and no other fields is accepted. -/
def validateRecord (r : Json) : Except ParseErrorKind Json :=
  match jsGet r "stem" with
  | some (.str s) => if s == "" then .error .missingRequiredField else .ok r
  | _ => .error .missingRequiredField

/-! ### Helper lemmas -/

theorem getKey_setKey_self (ms : List (String × Json)) (k : String) (v : Json) :
    getKey (setKey ms k v) k = some v := by
  induction ms with
  | nil => simp [setKey, getKey]
  | cons m ms ih =>
      obtain ⟨k1, v1⟩ := m
      by_cases h : k1 = k
      · subst h; simp [setKey, getKey]
      · simp [setKey, getKey, h, ih]

theorem getKey_setKey_ne (ms : List (String × Json)) (k k' : String) (v : Json)
    (h : k' ≠ k) : getKey (setKey ms k v) k' = getKey ms k' := by
  have hne : ¬k = k' := fun hh => h hh.symm
  induction ms with
  | nil => simp [setKey, getKey, hne]
  | cons m ms ih =>
      obtain ⟨k1, v1⟩ := m
      by_cases h1 : k1 = k
      · subst h1
        simp [setKey, getKey, hne]
      · simp [setKey, getKey, h1, ih]

theorem mapWithIdx_length (f : Nat → Json → Json) :
    ∀ (cs : List Json) (i : Nat), (mapWithIdx f i cs).length = cs.length := by
  intro cs
  induction cs with
  | nil => intro i; rfl
  | cons c cs ih => intro i; simp [mapWithIdx, ih]

theorem mapWithIdx_getElem? (f : Nat → Json → Json) :
    ∀ (cs : List Json) (i n : Nat),
      (mapWithIdx f i cs)[n]? = (cs[n]?).map (f (i + n)) := by
  intro cs
  induction cs with
  | nil => intro i n; simp [mapWithIdx]
  | cons c cs ih =>
      intro i n
      cases n with
      | zero => simp [mapWithIdx]
      | succ n =>
          simp only [mapWithIdx, List.getElem?_cons_succ]
          rw [ih (i + 1) n]
          have he : i + 1 + n = i + (n + 1) := by omega
          rw [he]

/-- `normalizeFinalAnswer` on an object yields an object whose every key
other than `final_answer` is untouched; in particular `checks`. -/
theorem normalizeFinalAnswer_members (ms : List (String × Json)) :
    ∃ ms1, normalizeFinalAnswer (.obj ms) = .obj ms1 ∧
      getKey ms1 "checks" = getKey ms "checks" := by
  unfold normalizeFinalAnswer
  split
  next ms' h =>
    cases h
    split
    · split
      · split
        · exact ⟨_, rfl, getKey_setKey_ne ms "final_answer" "checks" _ (by decide)⟩
        · exact ⟨ms, rfl, rfl⟩
      · exact ⟨ms, rfl, rfl⟩
    · exact ⟨ms, rfl, rfl⟩
  next j h => exact absurd rfl (h ms)

/-- `normalizeChecks` writes only the `checks` key of an object. -/
theorem normalizeChecks_jsGet_ne (ms : List (String × Json)) (k : String)
    (hk : k ≠ "checks") :
    jsGet (normalizeChecks (.obj ms)) k = getKey ms k := by
  unfold normalizeChecks
  split
  next ms' h =>
    cases h
    split
    · exact getKey_setKey_ne ms "checks" k _ hk
    · exact getKey_setKey_ne ms "checks" k _ hk
  next j h => exact absurd rfl (h ms)

theorem isFenceHead_cons_ne (c : Char) (xs : List Char) (hc : c ≠ btick) :
    isFenceHead (c :: xs) = false := by
  match xs with
  | [] => rfl
  | [_] => rfl
  | x :: y :: zs =>
      simp [isFenceHead]
      intro h
      exact absurd h hc

theorem captureToCloser_no_btick (xs : List Char) (rest : List Char)
    (hxs : ∀ c ∈ xs, c ≠ btick) :
    captureToCloser (xs ++ btick :: btick :: btick :: rest) = some xs := by
  induction xs with
  | nil => simp [captureToCloser, isFenceHead]
  | cons c cs ih =>
      have hc : c ≠ btick := hxs c (by simp)
      have hrest : ∀ x ∈ cs, x ≠ btick := fun x hx => hxs x (by simp [hx])
      simp [captureToCloser, isFenceHead_cons_ne c _ hc, ih hrest]

theorem fencedFrom_skip (pre rest : List Char) (hpre : ∀ c ∈ pre, c ≠ btick) :
    fencedFrom (pre ++ rest) = fencedFrom rest := by
  induction pre with
  | nil => rfl
  | cons c cs ih =>
      have hc : c ≠ btick := hpre c (by simp)
      have hcs : ∀ x ∈ cs, x ≠ btick := fun x hx => hpre x (by simp [hx])
      simp only [List.cons_append, fencedFrom, isFenceHead_cons_ne c _ hc,
        Bool.false_eq_true, if_neg, ih hcs]
      simp [ih hcs]

theorem dropWhile_cons_of_neg {p : Char → Bool} {c : Char} {cs : List Char}
    (h : p c = false) : (c :: cs).dropWhile p = c :: cs := by
  simp [List.dropWhile, h]

theorem dropWhile_append_btick (xs rest : List Char) :
    (xs ++ btick :: rest).dropWhile jsWsB = xs.dropWhile jsWsB ++ btick :: rest := by
  induction xs with
  | nil =>
      simp [dropWhile_cons_of_neg (show jsWsB btick = false by decide)]
  | cons c cs ih =>
      by_cases h : jsWsB c = true
      · simp [List.dropWhile, h, ih]
      · have h2 : jsWsB c = false := by simpa using h
        simp [List.dropWhile, h2]

theorem dropWhile_idem (p : Char → Bool) (xs : List Char) :
    (xs.dropWhile p).dropWhile p = xs.dropWhile p := by
  induction xs with
  | nil => rfl
  | cons c cs ih =>
      by_cases h : p c = true
      · simp [List.dropWhile, h, ih]
      · have h2 : p c = false := by simpa using h
        simp [List.dropWhile, h2]

theorem trimList_dropWhile (xs : List Char) :
    trimList (xs.dropWhile jsWsB) = trimList xs := by
  unfold trimList
  rw [dropWhile_idem]

theorem mem_of_mem_dropWhile {p : Char → Bool} {c : Char} :
    ∀ {xs : List Char}, c ∈ xs.dropWhile p → c ∈ xs := by
  intro xs
  induction xs with
  | nil => intro h; simp at h
  | cons x ys ih =>
      intro h
      by_cases hp : p x = true
      · simp only [List.dropWhile, hp] at h
        exact List.mem_cons_of_mem x (ih h)
      · have h2 : p x = false := by simpa using hp
        simp only [List.dropWhile, h2] at h
        exact h

/-! ### Claim theorems -/

/-- C1: a record lacking a non-empty `stem` (absent, or present as the empty
string) is rejected by the validation gate with `MissingRequiredField`, and a
record with a non-empty string `stem` and no other fields is accepted. -/
theorem stem_validation_gate :
    (∀ r : Json, (jsGet r "stem" = none ∨ jsGet r "stem" = some (.str "")) →
        validateRecord r = .error .missingRequiredField) ∧
    (∀ s : String, s ≠ "" →
        validateRecord (.obj [("stem", .str s)]) = .ok (.obj [("stem", .str s)])) := by
  constructor
  · intro r h
    unfold validateRecord
    rcases h with h | h <;> simp [h]
  · intro s hs
    simp [validateRecord, jsGet, getKey, hs]

/-- C1 witness: the gate at concrete records — stem absent, stem `""`, and a
stem-only record. -/
theorem stem_validation_gate_witness :
    validateRecord (.obj []) = .error .missingRequiredField ∧
    validateRecord (.obj [("stem", .str "")]) = .error .missingRequiredField ∧
    validateRecord (.obj [("stem", .str "二次関数の最小値を求めよ")])
      = .ok (.obj [("stem", .str "二次関数の最小値を求めよ")]) :=
  ⟨stem_validation_gate.1 _ (Or.inl rfl),
   stem_validation_gate.1 _ (Or.inr rfl),
   stem_validation_gate.2 _ (by decide)⟩

/-- C4 (amended): a string `final_answer` longer than 20 UTF-16 units whose
leading numeric token exists is replaced by that token; the short strings
`"-4"` and `"-4 は最小値です"` (9 units, under the threshold) are left
unchanged. -/
theorem finalAnswer_normalization :
    (∀ (ms : List (String × Json)) (fa tok : String),
        getKey ms "final_answer" = some (.str fa) →
        leadingNumericToken fa = some tok →
        utf16Len fa > 20 →
        jsGet (normalizeParsed (.obj ms)) "final_answer" = some (.str tok)) ∧
    jsGet (normalizeParsed (.obj [("final_answer", .str "-4")])) "final_answer"
      = some (.str "-4") ∧
    jsGet (normalizeParsed (.obj [("final_answer", .str "-4 は最小値です")])) "final_answer"
      = some (.str "-4 は最小値です") := by
  refine ⟨?_, rfl, rfl⟩
  intro ms fa tok hfa htok hlen
  have h1 : normalizeFinalAnswer (.obj ms) = .obj (setKey ms "final_answer" (.str tok)) := by
    simp only [normalizeFinalAnswer, hfa, htok]
    rw [if_pos hlen]
  unfold normalizeParsed
  rw [h1, normalizeChecks_jsGet_ne _ _ (by decide), getKey_setKey_self]

/-- C4 witness: a 42-unit explanation string is replaced by its leading
numeric token `"-4"`. -/
theorem finalAnswer_normalization_witness :
    jsGet (normalizeParsed
        (.obj [("final_answer", .str "-4 is the minimum value attained at x = 3")]))
      "final_answer" = some (.str "-4") :=
  finalAnswer_normalization.1 _ "-4 is the minimum value attained at x = 3" "-4"
    rfl rfl (by decide)

/-- C4 counterexample: `"-4 は最小値です"` is 9 UTF-16 units long, so the
`length > 20` guard fails and normalization leaves it unchanged — it is not
replaced by `"-4"` as the claim states. -/
theorem finalAnswer_short_example_counterexample :
    utf16Len "-4 は最小値です" = 9 ∧
    leadingNumericToken "-4 は最小値です" = some "-4" ∧
    parseLlmOutput "\x7b\"final_answer\": \"-4 は最小値です\"\x7d"
      = .parsedJson (.obj [("final_answer", .str "-4 は最小値です"),
                           ("checks", .arr [autoCheck, autoCheck])]) ∧
    ("-4 は最小値です" : String) ≠ "-4" :=
  ⟨rfl, rfl, rfl, by decide⟩

/-- C5: when no fenced block parses and the brace scan yields nothing, the
parser never raises and returns the plain-prose fallback, whose `stem` and
`stem_latex` are the trimmed input. -/
theorem prose_fallback_never_raises (text : String)
    (hne : jsTrim text ≠ "")
    (hf : ∀ cap, fencedFrom text.data = some cap →
        jsonParse (String.mk (trimList cap)) = none)
    (hb : braceFallback text.data = none) :
    parseLlmOutput text = .prose (fallbackRecord text) ∧
    jsGet (fallbackRecord text) "stem" = some (.str (jsTrim text)) ∧
    jsGet (fallbackRecord text) "stem_latex" = some (.str (jsTrim text)) := by
  have hex : extractJson text = none := by
    unfold extractJson extractJsonL
    cases hcap : fencedFrom text.data with
    | none => simp [hb]
    | some cap => simp [hf cap hcap, hb]
  refine ⟨?_, by simp [fallbackRecord, jsGet, getKey],
    by simp [fallbackRecord, jsGet, getKey]⟩
  unfold parseLlmOutput
  simp [hne, hex]

/-- C5 witness: a prose-only input takes the fallback branch. -/
theorem prose_fallback_witness :
    parseLlmOutput "これはただのテキストです。"
      = .prose (fallbackRecord "これはただのテキストです。") ∧
    jsGet (fallbackRecord "これはただのテキストです。") "stem"
      = some (.str (jsTrim "これはただのテキストです。")) ∧
    jsGet (fallbackRecord "これはただのテキストです。") "stem_latex"
      = some (.str (jsTrim "これはただのテキストです。")) :=
  prose_fallback_never_raises "これはただのテキストです。" (by decide)
    (fun cap h => by
      rw [show fencedFrom ("これはただのテキストです。" : String).data = none from rfl] at h
      exact Option.noConfusion h)
    rfl

/-- C10: the brace-depth scan counts braces inside string literals: the input
`{"a": "}"}` is a valid top-level JSON object (its `JSON.parse` succeeds),
yet `extractJson` returns nothing and the input falls through to the
plain-prose fallback. -/
theorem brace_scan_counts_braces_in_strings :
    jsonParse "\x7b\"a\": \"\x7d\"\x7d" = some (.obj [("a", .str "\x7d")]) ∧
    extractJson "\x7b\"a\": \"\x7d\"\x7d" = none ∧
    parseLlmOutput "\x7b\"a\": \"\x7d\"\x7d" = .prose (fallbackRecord "\x7b\"a\": \"\x7d\"\x7d") :=
  ⟨rfl, rfl, rfl⟩

/-- C3 (amended): after normalization `checks` is always an array of length
≥ 2; when the original `checks` was an array its entries are preserved in
order through `coerceCheck` (padded with `padCheck` up to two); when it was
absent or not an array it becomes two `autoCheck` placeholders.  `coerceCheck`
defaults a missing or falsy `desc` and a missing/null `ok`, but does NOT
type-coerce a present truthy `desc` (or a non-null `ok`) to string/boolean —
see the counterexample. -/
theorem checks_normalization (ms : List (String × Json)) :
    ∃ cs2 : List Json,
      jsGet (normalizeParsed (.obj ms)) "checks" = some (.arr cs2) ∧
      2 ≤ cs2.length ∧
      (∀ cs, getKey ms "checks" = some (.arr cs) →
          cs2.length = Nat.max cs.length 2 ∧
          ∀ n, n < cs.length → cs2[n]? = (cs[n]?).map (coerceCheck n)) ∧
      ((∀ cs, getKey ms "checks" ≠ some (.arr cs)) → cs2 = [autoCheck, autoCheck]) := by
  obtain ⟨ms1, hms1, hk⟩ := normalizeFinalAnswer_members ms
  unfold normalizeParsed
  rw [hms1]
  unfold normalizeChecks
  have hdefault : ∀ v0 : Option Json, (∀ cs, v0 ≠ some (.arr cs)) →
      getKey ms1 "checks" = v0 →
      ∃ cs2 : List Json,
        jsGet (Json.obj (setKey ms1 "checks" (.arr [autoCheck, autoCheck]))) "checks"
          = some (.arr cs2) ∧
        2 ≤ cs2.length ∧
        (∀ cs, getKey ms "checks" = some (.arr cs) →
            cs2.length = Nat.max cs.length 2 ∧
            ∀ n, n < cs.length → cs2[n]? = (cs[n]?).map (coerceCheck n)) ∧
        ((∀ cs, getKey ms "checks" ≠ some (.arr cs)) → cs2 = [autoCheck, autoCheck]) := by
    intro v0 hv0 hget
    refine ⟨[autoCheck, autoCheck], ?_, by simp, ?_, fun _ => rfl⟩
    · show jsGet (Json.obj (setKey ms1 "checks" (.arr [autoCheck, autoCheck]))) "checks"
          = some (.arr [autoCheck, autoCheck])
      simpa [jsGet] using getKey_setKey_self ms1 "checks" (.arr [autoCheck, autoCheck])
    · intro cs hcs
      rw [← hk, hget] at hcs
      exact absurd hcs (hv0 cs)
  rcases hget : getKey ms1 "checks" with _ | v
  · simpa [hget] using hdefault none (by simp) hget
  · cases v with
    | arr cs0 =>
        simp only [hget]
        refine ⟨mapWithIdx coerceCheck 0 cs0
            ++ List.replicate (2 - (mapWithIdx coerceCheck 0 cs0).length) padCheck,
          ?_, ?_, ?_, ?_⟩
        · simpa [jsGet] using getKey_setKey_self ms1 "checks" _
        · simp [mapWithIdx_length]
          omega
        · intro cs hcs
          have hcs0 : cs = cs0 := by
            rw [← hk, hget] at hcs
            simpa using hcs.symm
          subst hcs0
          constructor
          · simp [mapWithIdx_length, Nat.max_def]
            split <;> omega
          · intro n hn
            rw [List.getElem?_append_left (by simpa [mapWithIdx_length] using hn)]
            rw [mapWithIdx_getElem? coerceCheck _ 0 n]
            simp
        · intro habs
          exact ((habs cs0) (hk.symm.trans hget)).elim
    | null => simpa [hget] using hdefault (some .null) (by simp) hget
    | bool b => simpa [hget] using hdefault (some (.bool b)) (by simp) hget
    | num lex => simpa [hget] using hdefault (some (.num lex)) (by simp) hget
    | str s => simpa [hget] using hdefault (some (.str s)) (by simp) hget
    | obj ms2 => simpa [hget] using hdefault (some (.obj ms2)) (by simp) hget

/-- C3 counterexample: for the input object whose single check entry is
`\x7b desc: 5 \x7d`, the normalized entry keeps `desc` as the NUMBER `5` —
it is not coerced to a string (in particular it is not the string `"5"`),
contradicting the claim's "coerced to ... description: string". -/
theorem checks_coercion_counterexample :
    parseLlmOutput "\x7b\"checks\": [\x7b\"desc\": 5\x7d]\x7d"
      = .parsedJson (.obj [("checks",
          .arr [.obj [("desc", .num "5"), ("ok", .bool false)], padCheck])]) ∧
    Json.num "5" ≠ Json.str "5" :=
  ⟨rfl, fun h => Json.noConfusion h⟩

/-- C3 witness: the normalization applied to a one-entry `checks` array. -/
theorem checks_normalization_witness :
    ∃ cs2 : List Json,
      jsGet (normalizeParsed (.obj [("checks",
          .arr [.obj [("desc", .str "式変形を確認"), ("ok", .bool true)]])])) "checks"
        = some (.arr cs2) ∧
      2 ≤ cs2.length ∧
      (∀ cs, getKey [("checks",
          .arr [.obj [("desc", .str "式変形を確認"), ("ok", .bool true)]])] "checks"
            = some (.arr cs) →
          cs2.length = Nat.max cs.length 2 ∧
          ∀ n, n < cs.length → cs2[n]? = (cs[n]?).map (coerceCheck n)) ∧
      ((∀ cs, getKey [("checks",
          .arr [.obj [("desc", .str "式変形を確認"), ("ok", .bool true)]])] "checks"
            ≠ some (.arr cs)) → cs2 = [autoCheck, autoCheck]) :=
  checks_normalization _

/-- C7 (amended): when the FIRST triple-backtick fence of the input opens a
`json` block whose interior parses as JSON, `extractJson` returns exactly
that parse, ignoring all surrounding prose (`pre` before the fence and
`post` after the closing fence). -/
theorem fenced_first_block_extracted (pre body post : List Char) (v : Json)
    (hpre : ∀ c ∈ pre, c ≠ btick) (hbody : ∀ c ∈ body, c ≠ btick)
    (hparse : jsonParse (String.mk (trimList body)) = some v) :
    extractJson (String.mk (pre ++ btick :: btick :: btick :: 'j' :: 's' :: 'o' :: 'n'
      :: (body ++ btick :: btick :: btick :: post))) = some v := by
  have hcap : captureToCloser ((body ++ btick :: btick :: btick :: post).dropWhile jsWsB)
      = some (body.dropWhile jsWsB) := by
    rw [dropWhile_append_btick]
    exact captureToCloser_no_btick _ _ (fun c hc => hbody c (mem_of_mem_dropWhile hc))
  have h1 : fencedFrom (pre ++ btick :: btick :: btick :: 'j' :: 's' :: 'o' :: 'n'
      :: (body ++ btick :: btick :: btick :: post)) = some (body.dropWhile jsWsB) := by
    rw [fencedFrom_skip pre _ hpre]
    simp [fencedFrom, isFenceHead, dropJsonTag, hcap]
  unfold extractJson
  show extractJsonL (pre ++ btick :: btick :: btick :: 'j' :: 's' :: 'o' :: 'n'
      :: (body ++ btick :: btick :: btick :: post)) = some v
  unfold extractJsonL
  rw [h1]
  simp only [trimList_dropWhile, hparse]

/-- C7 witness: a fenced `json` object with empty prose around it. -/
theorem fenced_first_block_extracted_witness :
    extractJson (String.mk ([] ++ btick :: btick :: btick :: 'j' :: 's' :: 'o' :: 'n'
      :: (("\n\x7b\"a\": 1\x7d\n").data ++ btick :: btick :: btick :: [])))
      = some (.obj [("a", .num "1")]) :=
  fenced_first_block_extracted [] ("\n\x7b\"a\": 1\x7d\n").data [] _
    (by simp) (by decide) rfl

/-- C7 counterexample: the input contains a well-formed ```json fence whose
interior is the valid object `\x7b"a": 1\x7d`, but an earlier fence pair is
matched first (its interior is not JSON) and the `\x7bx\x7d` in the prose
derails the brace scan, so `extractJson` extracts nothing at all and the
whole input is treated as prose. -/
theorem fenced_json_not_first_counterexample :
    strIncludes "see \x7bx\x7d first\n```\nnot json\n```\n```json\n\x7b\"a\": 1\x7d\n```"
      "```json\n\x7b\"a\": 1\x7d\n```" = true ∧
    jsonParse "\x7b\"a\": 1\x7d" = some (.obj [("a", .num "1")]) ∧
    extractJson "see \x7bx\x7d first\n```\nnot json\n```\n```json\n\x7b\"a\": 1\x7d\n```"
      = none ∧
    parseLlmOutput "see \x7bx\x7d first\n```\nnot json\n```\n```json\n\x7b\"a\": 1\x7d\n```"
      = .prose (fallbackRecord
          "see \x7bx\x7d first\n```\nnot json\n```\n```json\n\x7b\"a\": 1\x7d\n```") :=
  ⟨rfl, rfl, rfl, rfl⟩

/-- A concrete mid-pipeline page state used by the scenario witnesses. -/
def devStateExample : DevState :=
  { currentStep := 4
    status := "JSON パース成功（正規化済み）"
    basePrompt := "数学の問題を1問作成してください"
    ragPrompt := ""
    retrievedChunks := .arr []
    ragSkipped := false
    llmOutput := "x^2 - 6x + 5 の最小値を求めよ"
    parsedProblem := some (.obj [("stem", .str "x^2 - 6x + 5 の最小値を求めよ")])
    parseError := ""
    savedProblemId := .num "17"
    pdfUrl := .str ""
    pdfWorking := false }

/-- C6: when retrieval signals a cold, empty index (`empty vocabulary` /
`retrieval failed`), `injectRag` neither fails nor discards state — only the
status changes, to the skip guidance — and the skip transition then records
`RagSkipped` (its own transition, step 3) with the downstream prompt equal to
the un-augmented base prompt. -/
theorem rag_empty_index_skips_not_fails (s : DevState) (msg : String)
    (hbp : s.basePrompt ≠ "")
    (hmsg : strIncludes msg "empty vocabulary" = true ∨
            strIncludes msg "retrieval failed" = true) :
    (injectRag s (.error msg)).status = ragEmptyHint ∧
    (injectRag s (.error msg)).currentStep = s.currentStep ∧
    (injectRag s (.error msg)).basePrompt = s.basePrompt ∧
    (injectRag s (.error msg)).ragSkipped = s.ragSkipped ∧
    (injectRag s (.error msg)).llmOutput = s.llmOutput ∧
    (injectRag s (.error msg)).parsedProblem = s.parsedProblem ∧
    (skipRag (injectRag s (.error msg))).ragSkipped = true ∧
    (skipRag (injectRag s (.error msg))).currentStep = 3 ∧
    finalPrompt (skipRag (injectRag s (.error msg))) = s.basePrompt := by
  have hb : (s.basePrompt == "") = false := by simpa using hbp
  have h1 : injectRag s (.error msg) = { s with status := ragEmptyHint } := by
    unfold injectRag
    rcases hmsg with h | h <;> simp [hb, h]
  rw [h1]
  refine ⟨rfl, rfl, rfl, rfl, rfl, rfl, rfl, rfl, ?_⟩
  simp [skipRag, finalPrompt]

/-- C6 witness: the cold-index error message on a concrete state. -/
theorem rag_empty_index_witness :
    (injectRag devStateExample (.error "retrieval failed: empty vocabulary")).status
      = ragEmptyHint ∧
    (skipRag (injectRag devStateExample
        (.error "retrieval failed: empty vocabulary"))).ragSkipped = true ∧
    finalPrompt (skipRag (injectRag devStateExample
        (.error "retrieval failed: empty vocabulary")))
      = "数学の問題を1問作成してください" :=
  have T := rag_empty_index_skips_not_fails devStateExample
    "retrieval failed: empty vocabulary" (by decide) (Or.inl (by decide))
  ⟨T.1, T.2.2.2.2.2.2.1, T.2.2.2.2.2.2.2.2⟩

/-- Did the compile call fail (a thrown error, or a response without a
truthy `pdf_url`)?  The `data.error` and missing-engine cases are both
covered by the absence of a truthy `pdf_url`. -/
def compileOutcomeFailed : Except String Json → Bool
  | .ok data =>
      match jsGet data "pdf_url" with
      | some u => !jsTruthy u
      | none => true
  | .error _ => true

/-- C9: a failed compile after parse and persist does not fail the session:
the parsed record, raw LLM output and saved problem id are unchanged, the
artifact reference (`pdfUrl`) is unchanged (absent if it was absent), the
wizard step is unchanged, and the failure is reported only as a
`PDF 生成失敗` status with the working flag cleared. -/
theorem compile_failure_keeps_session (s : DevState) (result : Except String Json)
    (hne : jsTrim s.llmOutput ≠ "")
    (hfail : compileOutcomeFailed result = true) :
    (compilePdf s result).parsedProblem = s.parsedProblem ∧
    (compilePdf s result).llmOutput = s.llmOutput ∧
    (compilePdf s result).savedProblemId = s.savedProblemId ∧
    (compilePdf s result).pdfUrl = s.pdfUrl ∧
    (compilePdf s result).currentStep = s.currentStep ∧
    (compilePdf s result).basePrompt = s.basePrompt ∧
    (compilePdf s result).ragPrompt = s.ragPrompt ∧
    (compilePdf s result).pdfWorking = false ∧
    ∃ rest, (compilePdf s result).status = "PDF 生成失敗: " ++ rest := by
  have hg : (jsTrim s.llmOutput == "") = false := by simpa using hne
  cases result with
  | error msg =>
      refine ⟨?_, ?_, ?_, ?_, ?_, ?_, ?_, ?_, ⟨msg, ?_⟩⟩ <;> simp [compilePdf, hg]
  | ok data =>
      have hfs : ∀ s' : DevState,
          (compilePdf.compileFailStatus s' data).parsedProblem = s'.parsedProblem ∧
          (compilePdf.compileFailStatus s' data).llmOutput = s'.llmOutput ∧
          (compilePdf.compileFailStatus s' data).savedProblemId = s'.savedProblemId ∧
          (compilePdf.compileFailStatus s' data).pdfUrl = s'.pdfUrl ∧
          (compilePdf.compileFailStatus s' data).currentStep = s'.currentStep ∧
          (compilePdf.compileFailStatus s' data).basePrompt = s'.basePrompt ∧
          (compilePdf.compileFailStatus s' data).ragPrompt = s'.ragPrompt ∧
          (compilePdf.compileFailStatus s' data).pdfWorking = s'.pdfWorking ∧
          ∃ rest, (compilePdf.compileFailStatus s' data).status
            = "PDF 生成失敗: " ++ rest := by
        intro s'
        exact ⟨rfl, rfl, rfl, rfl, rfl, rfl, rfl, rfl, ⟨compileFailDetail data, rfl⟩⟩
      rcases hu : jsGet data "pdf_url" with _ | u
      · have h2 : compilePdf s (.ok data)
            = { compilePdf.compileFailStatus s data with pdfWorking := false } := by
          unfold compilePdf
          simp [hg, hu]
        rw [h2]
        obtain ⟨a1, a2, a3, a4, a5, a6, a7, _, a9⟩ := hfs s
        exact ⟨a1, a2, a3, a4, a5, a6, a7, rfl, a9⟩
      · have hfalse : jsTruthy u = false := by
          have := hfail
          simp [compileOutcomeFailed, hu] at this
          simpa using this
        have h2 : compilePdf s (.ok data)
            = { compilePdf.compileFailStatus s data with pdfWorking := false } := by
          unfold compilePdf
          simp [hg, hu, hfalse]
        rw [h2]
        obtain ⟨a1, a2, a3, a4, a5, a6, a7, _, a9⟩ := hfs s
        exact ⟨a1, a2, a3, a4, a5, a6, a7, rfl, a9⟩

/-- C9 witness: a compiler-error response on a concrete persisted state. -/
theorem compile_failure_keeps_session_witness :
    (compilePdf devStateExample
        (.ok (.obj [("error", .str "pdflatex not found")]))).parsedProblem
      = some (.obj [("stem", .str "x^2 - 6x + 5 の最小値を求めよ")]) ∧
    (compilePdf devStateExample
        (.ok (.obj [("error", .str "pdflatex not found")]))).savedProblemId
      = .num "17" ∧
    (compilePdf devStateExample
        (.ok (.obj [("error", .str "pdflatex not found")]))).pdfUrl = .str "" ∧
    ∃ rest, (compilePdf devStateExample
        (.ok (.obj [("error", .str "pdflatex not found")]))).status
      = "PDF 生成失敗: " ++ rest :=
  have T := compile_failure_keeps_session devStateExample
    (.ok (.obj [("error", .str "pdflatex not found")])) (by decide) (by decide)
  ⟨T.1, T.2.2.1, T.2.2.2.1, T.2.2.2.2.2.2.2.2⟩

/-- A non-ok response is never turned into a successful gateway result. -/
theorem processResponse_not_ok (st : Nat) (stx ct body : String)
    (hok : resOk st = false) : ∀ d, processResponse st stx ct body ≠ .ok d := by
  intro d h
  unfold processResponse at h
  rw [hok] at h
  by_cases hct : strIncludes ct "application/json" = true
  · rw [if_pos hct] at h
    rcases hp : (if body == "" then some Json.null else jsonParse body) with _ | d2
    · rw [hp] at h
      simp at h
    · rw [hp] at h
      simp at h
  · rw [if_neg hct] at h
    simp at h

/-- C2: a 4xx response is never retried — the call terminates after exactly
one fetch with the error computed from that response, whatever the later
attempts would have returned — while two 502/504 responses followed by a
successful JSON response yield the parsed success after exactly three
fetches, the two failures not surfacing in the outcome. -/
theorem gateway_retry_policy :
    (∀ (f : Nat → FetchOutcome) (st : Nat) (stx ct body : String),
        f 0 = .response st stx ct body → 400 ≤ st → st ≤ 499 →
        apiFetch f = (processResponse st stx ct body, 1) ∧
        ∀ d, processResponse st stx ct body ≠ .ok d) ∧
    (∀ (f : Nat → FetchOutcome) (s0 s1 : Nat)
        (x0 c0 b0 x1 c1 b1 x2 c2 body : String) (d : Json),
        f 0 = .response s0 x0 c0 b0 → (s0 = 502 ∨ s0 = 504) →
        f 1 = .response s1 x1 c1 b1 → (s1 = 502 ∨ s1 = 504) →
        f 2 = .response 200 x2 c2 body →
        strIncludes c2 "application/json" = true →
        body ≠ "" → jsonParse body = some d → d ≠ .null →
        apiFetch f = (.ok (.jsonData d), 3)) := by
  constructor
  · intro f st stx ct body h0 h4a h4b
    have h502 : (st == 502) = false := by
      simp only [beq_eq_false_iff_ne, ne_eq]
      omega
    have h504 : (st == 504) = false := by
      simp only [beq_eq_false_iff_ne, ne_eq]
      omega
    refine ⟨?_, ?_⟩
    · show apiFetchGo f 3 0 none = (processResponse st stx ct body, 1)
      unfold apiFetchGo
      rw [h0]
      simp [h502, h504]
    · exact processResponse_not_ok st stx ct body (by simp [resOk]; omega)
  · intro f s0 s1 x0 c0 b0 x1 c1 b1 x2 c2 body d h0 hs0 h1 hs1 h2 hct hbne hparse hd
    have hbody : (body == "") = false := by simpa using hbne
    have hp : processResponse 200 x2 c2 body = .ok (.jsonData d) := by
      unfold processResponse
      rw [if_pos hct]
      cases d with
      | null => exact absurd rfl hd
      | bool b => simp [hbody, hparse, resOk]
      | num lex => simp [hbody, hparse, resOk]
      | str s => simp [hbody, hparse, resOk]
      | arr es => simp [hbody, hparse, resOk]
      | obj ms => simp [hbody, hparse, resOk]
    have L1 : apiFetchGo f 1 2 (some (.unavailableErr s1)) = (.ok (.jsonData d), 1) := by
      unfold apiFetchGo
      rw [h2]
      simp [hp]
    have L2 : apiFetchGo f 2 1 (some (.unavailableErr s0)) = (.ok (.jsonData d), 2) := by
      unfold apiFetchGo
      rw [h1]
      rcases hs1 with rfl | rfl <;> simp [L1]
    show apiFetchGo f 3 0 none = (.ok (.jsonData d), 3)
    unfold apiFetchGo
    rw [h0]
    rcases hs0 with rfl | rfl <;> simp [L2]

/-- A gateway call that always gets HTTP 404 with a JSON error body. -/
def fetch4xxExample : Nat → FetchOutcome := fun _ =>
  .response 404 "Not Found" "application/json" "\x7b\"detail\": \"bad request\"\x7d"

/-- A gateway call that gets 502, then 504, then a successful JSON body. -/
def fetchRecoveryExample : Nat → FetchOutcome := fun n =>
  if n = 0 then .response 502 "Bad Gateway" "text/html" ""
  else if n = 1 then .response 504 "Gateway Timeout" "text/html" ""
  else .response 200 "OK" "application/json" "\x7b\"ok\": true\x7d"

/-- C2 witness: the two retry scenarios at concrete oracles. -/
theorem gateway_retry_policy_witness :
    (apiFetch fetch4xxExample
        = (processResponse 404 "Not Found" "application/json"
            "\x7b\"detail\": \"bad request\"\x7d", 1) ∧
      ∀ d, processResponse 404 "Not Found" "application/json"
            "\x7b\"detail\": \"bad request\"\x7d" ≠ .ok d) ∧
    apiFetch fetchRecoveryExample = (.ok (.jsonData (.obj [("ok", .bool true)])), 3) :=
  ⟨gateway_retry_policy.1 fetch4xxExample 404 "Not Found" "application/json"
      "\x7b\"detail\": \"bad request\"\x7d" rfl (by decide) (by decide),
   gateway_retry_policy.2 fetchRecoveryExample 502 504
      "Bad Gateway" "text/html" "" "Gateway Timeout" "text/html" ""
      "OK" "application/json" "\x7b\"ok\": true\x7d" (.obj [("ok", .bool true)])
      rfl (Or.inl rfl) rfl (Or.inr rfl) rfl (by decide) (by decide) rfl
      (fun h => Json.noConfusion h)⟩

/-- C8 (amended): a declared-JSON body that fails to parse is never coerced
to `null` and returned as a success — the call always fails — but only on a
non-ok status is the failure the dedicated parse-failure error; on an ok
status it is the same error used for empty bodies, not a distinct
`MalformedResponse` kind. -/
theorem malformed_json_never_success (st : Nat) (stx ct body : String)
    (hct : strIncludes ct "application/json" = true)
    (hparse : jsonParse body = none) (hbne : body ≠ "") :
    (∀ d, processResponse st stx ct body ≠ .ok d) ∧
    (resOk st = true →
        apiFetchWith (fun _ => .response st stx ct body) 2
          = (.error .emptyBodyErr, 1)) ∧
    (resOk st = false → st ≠ 502 → st ≠ 504 →
        apiFetchWith (fun _ => .response st stx ct body) 2
          = (.error (.parseFailErr st), 1)) := by
  have hbody : (body == "") = false := by simpa using hbne
  have hpr : processResponse st stx ct body
      = if resOk st = true then .error .emptyBodyErr
        else .error (.parseFailErr st) := by
    unfold processResponse
    rw [if_pos hct]
    simp [hbody, hparse]
  refine ⟨?_, ?_, ?_⟩
  · intro d h
    rw [hpr] at h
    split at h <;> exact Except.noConfusion h
  · intro hok
    have hr : 200 ≤ st ∧ st ≤ 299 := by simpa [resOk] using hok
    have h502 : (st == 502) = false := by
      simp only [beq_eq_false_iff_ne, ne_eq]
      omega
    have h504 : (st == 504) = false := by
      simp only [beq_eq_false_iff_ne, ne_eq]
      omega
    show apiFetchGo (fun _ => .response st stx ct body) 3 0 none
        = (.error .emptyBodyErr, 1)
    unfold apiFetchGo
    simp [h502, h504, hpr, hok]
  · intro hok hn502 hn504
    have h502 : (st == 502) = false := by
      simp only [beq_eq_false_iff_ne, ne_eq]
      exact hn502
    have h504 : (st == 504) = false := by
      simp only [beq_eq_false_iff_ne, ne_eq]
      exact hn504
    show apiFetchGo (fun _ => .response st stx ct body) 3 0 none
        = (.error (.parseFailErr st), 1)
    unfold apiFetchGo
    simp [h502, h504, hpr, hok]

/-- C8 witness: the amended behaviour at an ok and a non-ok status. -/
theorem malformed_json_never_success_witness :
    apiFetchWith (fun _ => .response 200 "OK" "application/json" "not json") 2
      = (.error .emptyBodyErr, 1) ∧
    apiFetchWith (fun _ => .response 400 "Bad Request" "application/json" "not json") 2
      = (.error (.parseFailErr 400), 1) :=
  ⟨(malformed_json_never_success 200 "OK" "application/json" "not json"
      (by decide) rfl (by decide)).2.1 (by decide),
   (malformed_json_never_success 400 "Bad Request" "application/json" "not json"
      (by decide) rfl (by decide)).2.2 (by decide) (by decide) (by decide)⟩

/-- C8 counterexample: an ok response with declared-JSON body `"not json"`
fails with exactly the same error value as an ok response with an empty
body — the empty-response error, which is not the parse-failure
(`MalformedResponse`) kind — so the unparsable body is not reported as a
distinguishable `MalformedResponse` on ok statuses. -/
theorem malformed_json_counterexample :
    apiFetch (fun _ => .response 200 "OK" "application/json" "not json")
      = (.error .emptyBodyErr, 1) ∧
    apiFetch (fun _ => .response 200 "OK" "application/json" "")
      = (.error .emptyBodyErr, 1) ∧
    ApiError.emptyBodyErr ≠ ApiError.parseFailErr 200 :=
  ⟨rfl, rfl, fun h => ApiError.noConfusion h⟩
